import Mathlib

/-!
Verification development for the hatchet HPCToolkit reader
(src/hatchet/hpctoolkit_reader.py and src/hatchet/graph.py).

The Python code is shallowly embedded: XML elements become the `XTree`
inductive, the four lookup dictionaries become functions in `Tables`,
Python dict/attribute failures become the `PyError` type, the mutable
module globals `src_file` / `stmt_num` together with the growing
`self.node_dicts` list become the explicitly threaded `WalkState`, and
the *shared* Python list `parent_callpath` (which `parse_xml_node`
mutates through the alias `node_callpath = parent_callpath`) is
modelled by threading the list's current contents through every call
and returning them, exactly as the list object would evolve.
-/

set_option maxHeartbeats 1000000

/-- Python runtime errors that the embedded code can raise. -/
inductive PyError : Type where
  | keyError
  | typeError
  | valueError
  | unboundLocal
  | indexError
  | structError
  | attributeError
deriving DecidableEq, Repr

/-- An XML element as consumed by the reader: its tag, the five
attributes the reader ever reads (`i`, `n`, `f`, `l`, `lm`; `none`
models a missing attribute, i.e. `elem.get(k) is None`), and its
child elements in document order. -/
inductive XTree : Type where
  | mk (tag : String) (iA nA fA lA lmA : Option String) (children : List XTree)

def XTree.tag : XTree → String
  | .mk t _ _ _ _ _ _ => t

def XTree.iAttr : XTree → Option String
  | .mk _ i _ _ _ _ _ => i

def XTree.nAttr : XTree → Option String
  | .mk _ _ n _ _ _ _ => n

def XTree.fAttr : XTree → Option String
  | .mk _ _ _ f _ _ _ => f

def XTree.lAttr : XTree → Option String
  | .mk _ _ _ _ l _ _ => l

def XTree.lmAttr : XTree → Option String
  | .mk _ _ _ _ _ lm _ => lm

def XTree.children : XTree → List XTree
  | .mk _ _ _ _ _ _ cs => cs

/-- The three lookup dictionaries the tree builder dereferences
(`self.load_modules`, `self.src_files`, `self.procedure_names`),
as built by `fill_tables`; `none` models an absent key. -/
structure Tables : Type where
  load_modules : String → Option String
  src_files : String → Option String
  procedure_names : String → Option String

/-- One entry of `self.node_dicts` as built by `create_node_dict`
(hpctoolkit_reader.py lines 256-262).  The `node` field of the Python
dict holds the freshly created `Node` object; here the node is
represented by its callpath tuple. -/
structure NodeRec : Type where
  nid : Int
  name : String
  type : String
  file : String
  line : Option String
  module : Option String
  callpath : List String
deriving DecidableEq, Repr

/-- Modelled from the spec: a `Node` of the calling-context tree
(`src/hatchet/node.py` is not among the sources).  Per the spec's data
model a Node has an immutable `callpath`, an append-only ordered
`children` list, and a non-owning parent back-reference; the parent
reference is implicit in the tree structure here. -/
inductive PTree : Type where
  | mk (callpath : List String) (children : List PTree)

def PTree.callpath : PTree → List String
  | .mk cp _ => cp

def PTree.children : PTree → List PTree
  | .mk _ cs => cs

/-- The mutable state of one bundle walk: the module globals
`src_file` (line 29; its initial value `0` is an `int`, never a valid
string key, modelled as `none`) and `stmt_num` (line 30), plus the
growing `self.node_dicts` list. -/
structure WalkState : Type where
  src_file : Option String
  stmt_num : Nat
  node_dicts : List NodeRec
deriving Repr

/-- Python `d[k]` where `k` is the result of `elem.get(...)`:
`d[None]` and a missing key both raise `KeyError`. -/
def dictGet (d : String → Option String) (k : Option String) : Except PyError String :=
  match k with
  | none => .error .keyError
  | some s =>
    match d s with
    | none => .error .keyError
    | some v => .ok v

/-- Value of a (non-empty, all-digit) decimal numeral; `none` models
`ValueError` from Python `int(...)` on a malformed string. -/
def digitsVal (ds : List Char) : Option Nat :=
  if ds.isEmpty then none
  else if ds.all Char.isDigit then
    some (ds.foldl (fun n c => n * 10 + (c.toNat - 48)) 0)
  else none

/-- Python `int(elem.get('i'))`: `int(None)` raises `TypeError`,
a non-numeric string raises `ValueError` (leading `-` accepted;
whitespace/`+` forms do not occur in the profiles modelled here). -/
def pyIntOpt (k : Option String) : Except PyError Int :=
  match k with
  | none => .error .typeError
  | some s =>
    match s.data with
    | '-' :: ds =>
      match digitsVal ds with
      | none => .error .valueError
      | some n => .ok (-(n : Int))
    | ds =>
      match digitsVal ds with
      | none => .error .valueError
      | some n => .ok ((n : Int))

/-- Python `s.rpartition('/')[2]`: the final path segment after the
last `/` (the whole string when it contains no `/`). -/
def rpartLast (s : String) : String :=
  ⟨s.data.foldl (fun acc c => if c = '/' then [] else acc ++ [c]) []⟩

mutual

/-- Embeds `HPCToolkitReader.parse_xml_node` (lines 201-254).  Takes
the current contents of the shared `parent_callpath` list and the walk
state; returns the subtrees that the call attaches to `hparent` (one
retained node, or — for an elided callsite / empty-named `Pr` — the
trees its children attach), the contents of the `parent_callpath`
list object after the call (the Python code mutates it in place via
the alias `node_callpath`), and the updated state. -/
def parseXmlNode (T : Tables) (x : XTree) (cp : List String) (st : WalkState) :
    Except PyError (List PTree × List String × WalkState) :=
  match x with
  | .mk tag iA nA fA lA lmA children =>
    match pyIntOpt iA with
    | .error e => .error e
    | .ok nid =>
      if tag == "PF" || tag == "Pr" then
        -- procedure (lines 210-220)
        match dictGet T.procedure_names nA with
        | .error e => .error e
        | .ok name =>
          let st1 : WalkState := { st with src_file := fA }
          let cp1 := cp ++ [name]
          match dictGet T.src_files fA with
          | .error e => .error e
          | .ok file =>
            match dictGet T.load_modules lmA with
            | .error e => .error e
            | .ok lmv =>
              let rcd : NodeRec := ⟨nid, name, tag, file, lA, some lmv, cp1⟩
              if tag == "Pr" && name == "" then
                -- elided: children attached to hparent, shared list stays mutated
                parseXmlChildren T children cp1 st1
              else
                let st2 : WalkState := { st1 with node_dicts := st1.node_dicts ++ [rcd] }
                match parseXmlChildren T children cp1 st2 with
                | .error e => .error e
                | .ok (ts, _, st3) => .ok ([.mk cp1 ts], cp1, st3)
      else if tag == "L" then
        -- loop (lines 222-232)
        let st1 : WalkState := { st with src_file := fA }
        match dictGet T.src_files fA with
        | .error e => .error e
        | .ok file =>
          match lA with
          | none => .error .typeError
          | some line =>
            let name := "Loop@" ++ rpartLast file ++ ":" ++ line
            let cp1 := cp ++ [name]
            let rcd : NodeRec := ⟨nid, name, "L", file, some line, none, cp1⟩
            let st2 : WalkState := { st1 with node_dicts := st1.node_dicts ++ [rcd] }
            match parseXmlChildren T children cp1 st2 with
            | .error e => .error e
            | .ok (ts, _, st3) => .ok ([.mk cp1 ts], cp1, st3)
      else if tag == "S" then
        -- statement (lines 234-244): uses the inherited global src_file
        match dictGet T.src_files st.src_file with
        | .error e => .error e
        | .ok file =>
          match lA with
          | none => .error .typeError
          | some line =>
            let name := "Stmt" ++ toString st.stmt_num ++ "@" ++ rpartLast file ++ ":" ++ line
            let st1 : WalkState := { st with stmt_num := st.stmt_num + 1 }
            let cp1 := cp ++ [name]
            let rcd : NodeRec := ⟨nid, name, "S", file, some line, none, cp1⟩
            let st2 : WalkState := { st1 with node_dicts := st1.node_dicts ++ [rcd] }
            match parseXmlChildren T children cp1 st2 with
            | .error e => .error e
            | .ok (ts, _, st3) => .ok ([.mk cp1 ts], cp1, st3)
      else if tag == "C" then
        -- callsite: elided, children attached to hparent with the same list object
        parseXmlChildren T children cp st
      else
        -- any other tag reaches the final `else` with `node_dict` unbound
        .error .unboundLocal
termination_by structural x

/-- Embeds `HPCToolkitReader.parse_xml_children` (lines 194-199):
iterates over the children, skipping elements tagged `M`; every child
receives the same `parent_callpath` list object, so its contents are
threaded from one child to the next. -/
def parseXmlChildren (T : Tables) (xs : List XTree) (cp : List String) (st : WalkState) :
    Except PyError (List PTree × List String × WalkState) :=
  match xs with
  | [] => .ok ([], cp, st)
  | x :: rest =>
    if x.tag == "M" then
      parseXmlChildren T rest cp st
    else
      match parseXmlNode T x cp st with
      | .error e => .error e
      | .ok (ts, cp', st') =>
        match parseXmlChildren T rest cp' st' with
        | .error e => .error e
        | .ok (ts2, cp'', st'') => .ok (ts ++ ts2, cp'', st'')
termination_by structural xs

end

/-- Embeds `Graph` from src/hatchet/graph.py: `__init__` assigns the
`roots` attribute only when the argument is not `None`, so
`roots_attr = none` models an object with no `roots` attribute. -/
structure Graph : Type where
  roots_attr : Option (List PTree)

/-- `Graph.__init__` (graph.py lines 21-23). -/
def Graph.init (roots : Option (List PTree)) : Graph := ⟨roots⟩

/-- `Graph.to_string` (graph.py lines 25-37) restricted to its `roots`
parameter (the remaining parameters are only forwarded to the external
renderer `trees_as_text`, which is out of scope and modelled as
returning the root list handed to it).  With `roots = None` the method
reads `self.roots`, raising `AttributeError` when the attribute was
never assigned. -/
def Graph.to_string (g : Graph) (roots : Option (List PTree)) : Except PyError (List PTree) :=
  match roots with
  | some rs => .ok rs
  | none =>
    match g.roots_attr with
    | some rs => .ok rs
    | none => .error .attributeError

/-- `Graph.__str__` (graph.py lines 51-54): `to_string()` with default
arguments. -/
def Graph.str (g : Graph) : Except PyError (List PTree) :=
  g.to_string none

/-- Embeds the tree-construction portion of
`HPCToolkitReader.create_graphframe` (lines 162-182 and 191): pick the
first top-level `PF` element of `SecCallPathProfileData`
(`findall('PF')[0]`; `IndexError` when there is none), build the root
callpath, node and record, walk the root's children, and wrap the
single root in a `Graph`.  `sf0` and `c0` are the values of the module
globals `src_file` and `stmt_num` when the call starts (`none` and `1`
in a fresh process); `self.node_dicts` starts empty (set in
`__init__`).  The dataframe/merge steps are modelled separately. -/
def create_graphframe_tree (T : Tables) (sf0 : Option String) (c0 : Nat) (profile : XTree) :
    Except PyError (Graph × List NodeRec) :=
  match (profile.children.filter (fun c => c.tag == "PF")) with
  | [] => .error .indexError
  | root :: _ =>
    match pyIntOpt root.iAttr with
    | .error e => .error e
    | .ok nid =>
      match dictGet T.procedure_names root.nAttr with
      | .error e => .error e
      | .ok rootName =>
        match dictGet T.src_files root.fAttr with
        | .error e => .error e
        | .ok file =>
          match dictGet T.load_modules root.lmAttr with
          | .error e => .error e
          | .ok lmv =>
            let rcd0 : NodeRec := ⟨nid, rootName, "PF", file, root.lAttr, some lmv, [rootName]⟩
            let st0 : WalkState := ⟨sf0, c0, [rcd0]⟩
            match parseXmlChildren T root.children [rootName] st0 with
            | .error e => .error e
            | .ok (ts, _, stF) =>
              .ok (Graph.init (some [.mk [rootName] ts]), stF.node_dicts)

deriving instance DecidableEq for Except

/-- The shared metrics buffer (`mp.sharedctypes.RawArray` viewed as a
2-D numpy array of shape `(num_nodes * num_pes, num_metrics + 2)`,
lines 131-138).  The float64 cells are represented opaquely as `Int`
(the reader only moves values, never computes with them); the buffer
is zero-initialised. -/
structure SharedBuf : Type where
  numRows : Nat
  numCols : Nat
  cell : Nat → Nat → Int

/-- A freshly allocated all-zero buffer. -/
def zerosBuf (rows cols : Nat) : SharedBuf :=
  ⟨rows, cols, fun _ _ => 0⟩

/-- Embeds `read_metricdb_file` (lines 39-53) for one file.
`fileFloats` is the sequence of big-endian float64 values found at
byte offset 32 of the file; `np.fromfile(count=N*M)` takes at most
`N*M` of them.  The three numpy writes are modelled exactly:
`arr[pe*N : pe*N+N, :2].flat = arr1d.flat` (flat assignment cycles a
shorter source and truncates a longer one; an empty source for a
non-empty destination raises `ValueError`), then the integer-indexed
column writes at the *fixed* indices 2 and 3, which raise
`IndexError` when the buffer is narrower (rows are assumed in range:
the coordinator always sizes `numRows = num_nodes * num_pes`). -/
def read_metricdb_file (pe num_nodes num_metrics : Nat) (fileFloats : List Int)
    (buf : SharedBuf) : Except PyError SharedBuf :=
  let arr1d := fileFloats.take (num_nodes * num_metrics)
  let pe_offset := pe * num_nodes
  let w := min 2 buf.numCols
  if arr1d.length == 0 && !(num_nodes * w == 0) then .error .valueError
  else
    let buf1 : SharedBuf :=
      { buf with cell := fun r c =>
          if pe_offset ≤ r ∧ r < pe_offset + num_nodes ∧ c < w then
            arr1d.getD (((r - pe_offset) * w + c) % arr1d.length) 0
          else buf.cell r c }
    if 2 < buf.numCols then
      let buf2 : SharedBuf :=
        { buf1 with cell := fun r c =>
            if pe_offset ≤ r ∧ r < pe_offset + num_nodes ∧ c = 2 then
              ((r - pe_offset : Nat) : Int) + 1
            else buf1.cell r c }
      if 3 < buf.numCols then
        .ok { buf2 with cell := fun r c =>
            if pe_offset ≤ r ∧ r < pe_offset + num_nodes ∧ c = 3 then (pe : Int)
            else buf2.cell r c }
      else .error .indexError
    else .error .indexError

/-- `struct.unpack('>i', bs)`: signed big-endian 32-bit integer from
four bytes. -/
def int32be (bs : List Nat) : Int :=
  let u := bs.getD 0 0 * 16777216 + bs.getD 1 0 * 65536 + bs.getD 2 0 * 256 + bs.getD 3 0
  if u < 2147483648 then (u : Int) else (u : Int) - 4294967296

/-- Embeds the header parse in `HPCToolkitReader.__init__`
(lines 80-90) on the raw bytes of one metric-db file: skip the 18-byte
tag and 5-byte version, compare the endianness byte at offset 23 with
`b'b'` (byte 98); on success unpack `num_nodes` and `num_metrics` as
big-endian int32 (a short read raises `struct.error`), otherwise raise
`ValueError`. -/
def parse_metricdb_header (file : List Nat) : Except PyError (Int × Int) :=
  let endian := (file.drop 23).take 1
  if endian == [98] then
    let b1 := (file.drop 24).take 4
    if b1.length == 4 then
      let b2 := (file.drop 28).take 4
      if b2.length == 4 then .ok (int32be b1, int32be b2)
      else .error .structError
    else .error .structError
  else .error .valueError

/-- `__init__` lines 75-90: the counts are read from the *first* file
of the glob listing only (`metricdb_files[0]`; `IndexError` on an
empty directory). -/
def reader_init_counts (files : List (List Nat)) : Except PyError (Int × Int) :=
  match files with
  | [] => .error .indexError
  | f0 :: _ => parse_metricdb_header f0

/-- The worker loop driven by `pool.map(read_metricdb_file, args)`
(lines 141-143): file `pe` of the enumeration is read with rank `pe`.
Workers write to disjoint row blocks, so the sequential fold yields
the same final buffer as the parallel pool. -/
def readFilesLoop (dec : List Nat → List Int) (num_nodes num_metrics : Nat)
    (pe : Nat) (files : List (List Nat)) (buf : SharedBuf) : Except PyError SharedBuf :=
  match files with
  | [] => .ok buf
  | f :: rest =>
    match read_metricdb_file pe num_nodes num_metrics (dec (f.drop 32)) buf with
    | .error e => .error e
    | .ok buf' => readFilesLoop dec num_nodes num_metrics (pe + 1) rest buf'

/-- Embeds `read_all_metricdb_files` (lines 121-143): allocate the
shared zero buffer of shape `(num_nodes * num_pes, num_metrics + 2)`
and run the reader over every file.  `dec` abstracts big-endian
float64 decoding of a byte sequence (float values opaque as `Int`). -/
def read_all_metricdb_files (dec : List Nat → List Int) (files : List (List Nat))
    (num_nodes num_metrics : Nat) : Except PyError SharedBuf :=
  readFilesLoop dec num_nodes num_metrics 0 files
    (zerosBuf (num_nodes * files.length) (num_metrics + 2))

/-- The metric-ingestion pipeline as `__init__` plus
`read_all_metricdb_files` execute it: the endianness/header check on
the first file, then the per-file payload reads (which perform no
header check of their own). -/
def ingest_metrics (dec : List Nat → List Int) (files : List (List Nat)) :
    Except PyError SharedBuf :=
  match reader_init_counts files with
  | .error e => .error e
  | .ok (n, m) => read_all_metricdb_files dec files n.toNat m.toNat

/-- One row of `self.df_metrics` as relevant to the merge: its `nid`
and `rank` columns plus the metric values. -/
structure MetricRow : Type where
  nid : Int
  rank : Int
  vals : List Int
deriving DecidableEq, Repr

/-- One row of `self.df_nodes` as relevant to the merge: its `nid`
column and the `node` column (the Node object, represented by an
arena identifier). -/
structure NodeRow : Type where
  nid : Int
  node : Nat
deriving DecidableEq, Repr

/-- One row of the merged dataframe. -/
structure MergedRow : Type where
  nid : Int
  rank : Int
  vals : List Int
  node : Nat
deriving DecidableEq, Repr

/-- `pd.merge(self.df_metrics, self.df_nodes, on='nid')` (line 186):
an inner join on the `nid` column. -/
def pd_merge (ms : List MetricRow) (ns : List NodeRow) : List MergedRow :=
  ms.flatMap (fun m =>
    (ns.filter (fun n => n.nid == m.nid)).map (fun n => ⟨m.nid, m.rank, m.vals, n.node⟩))

/-- `dataframe.set_index(['node','rank'], drop=False, inplace=True)`
(lines 188-189): attaches the (node, rank) MultiIndex.  With the
default `verify_integrity=False` pandas performs *no* duplicate check
and the rows are unchanged. -/
def set_index_node_rank (rows : List MergedRow) : List MergedRow :=
  rows

/-- The merge-and-index step of `create_graphframe` (lines 184-189). -/
def merge_metrics_nodes (ms : List MetricRow) (ns : List NodeRow) : List MergedRow :=
  set_index_node_rank (pd_merge ms ns)

/-- The names of the statement records of a record list, in
visitation (append) order. -/
def sNames (recs : List NodeRec) : List String :=
  (recs.filter (fun r => r.type == "S")).map (fun r => r.name)

/-- The names carry the consecutive counter values `c, c+1, ...` as
their `Stmt<N>@` prefixes. -/
def consecFromP : Nat → List String → Prop
  | _, [] => True
  | c, nm :: rest =>
    (∃ suffix, nm = "Stmt" ++ toString c ++ "@" ++ suffix) ∧ consecFromP (c + 1) rest

/-- What one (sub)walk does to the mutable state: it only appends
records, the statement counter advances by exactly the number of
statement records appended, and those statements are named with the
consecutive counter values starting at the incoming counter. -/
def Progress (st st' : WalkState) : Prop :=
  ∃ Δ, st'.node_dicts = st.node_dicts ++ Δ ∧
    st'.stmt_num = st.stmt_num + (sNames Δ).length ∧
    consecFromP st.stmt_num (sNames Δ)

theorem sNames_append (a b : List NodeRec) : sNames (a ++ b) = sNames a ++ sNames b := by
  simp [sNames, List.filter_append]

theorem sNames_cons_nonS {r : NodeRec} (h : (r.type == "S") = false) (Δ : List NodeRec) :
    sNames (r :: Δ) = sNames Δ := by
  simp [sNames, List.filter_cons, h]

theorem sNames_cons_S {r : NodeRec} (h : (r.type == "S") = true) (Δ : List NodeRec) :
    sNames (r :: Δ) = r.name :: sNames Δ := by
  simp [sNames, List.filter_cons, h]

theorem consecFromP_append {l1 l2 : List String} {c : Nat}
    (h1 : consecFromP c l1) (h2 : consecFromP (c + l1.length) l2) :
    consecFromP c (l1 ++ l2) := by
  induction l1 generalizing c with
  | nil => simpa using h2
  | cons nm rest ih =>
    obtain ⟨hnm, hrest⟩ := h1
    refine ⟨hnm, ih hrest ?_⟩
    have : c + 1 + rest.length = c + (rest.length + 1) := by omega
    simpa [this] using h2

theorem progress_refl (st : WalkState) : Progress st st :=
  ⟨[], by simp [sNames, consecFromP]⟩

theorem progress_trans {a b c : WalkState} (h1 : Progress a b) (h2 : Progress b c) :
    Progress a c := by
  obtain ⟨Δ1, hd1, hs1, hc1⟩ := h1
  obtain ⟨Δ2, hd2, hs2, hc2⟩ := h2
  refine ⟨Δ1 ++ Δ2, ?_, ?_, ?_⟩
  · rw [hd2, hd1, List.append_assoc]
  · rw [hs2, hs1, sNames_append]
    simp [List.length_append]
    omega
  · rw [sNames_append]
    exact consecFromP_append hc1 (by rw [← hs1]; exact hc2)

/-- Setting only the `src_file` global is a (record-free) progress
step. -/
theorem progress_src_file (st : WalkState) (v : Option String) :
    Progress st { st with src_file := v } :=
  ⟨[], by simp [sNames, consecFromP]⟩

/-- Appending one non-statement record is a progress step. -/
theorem progress_append_nonS (st : WalkState) (v : Option String) (r : NodeRec)
    (h : (r.type == "S") = false) :
    Progress st ⟨v, st.stmt_num, st.node_dicts ++ [r]⟩ := by
  have hs : sNames [r] = [] := by simp [sNames, List.filter_cons, h]
  exact ⟨[r], rfl, by simp [hs], by simp [hs, consecFromP]⟩

/-- Appending one statement record named with the current counter and
incrementing the counter is a progress step. -/
theorem progress_append_S (st : WalkState) (v : Option String) (r : NodeRec)
    (h : (r.type == "S") = true) (suffix : String)
    (hn : r.name = "Stmt" ++ toString st.stmt_num ++ "@" ++ suffix) :
    Progress st ⟨v, st.stmt_num + 1, st.node_dicts ++ [r]⟩ := by
  have hs : sNames [r] = [r.name] := by simp [sNames, List.filter_cons, h]
  refine ⟨[r], rfl, by simp [hs], ?_⟩
  rw [hs]
  exact ⟨⟨suffix, hn⟩, trivial⟩

theorem parse_progress (n : Nat) :
    (∀ (x : XTree) (T : Tables) (cp : List String) (st : WalkState) r,
        sizeOf x ≤ n → parseXmlNode T x cp st = .ok r → Progress st r.2.2) ∧
    (∀ (xs : List XTree) (T : Tables) (cp : List String) (st : WalkState) r,
        sizeOf xs ≤ n → parseXmlChildren T xs cp st = .ok r → Progress st r.2.2) := by
  induction n using Nat.strong_induction_on with
  | _ n ih =>
    have ihN : ∀ m, m < n → ∀ (x : XTree) (T : Tables) (cp : List String) (st : WalkState) r,
        sizeOf x ≤ m → parseXmlNode T x cp st = .ok r → Progress st r.2.2 :=
      fun m hm => (ih m hm).1
    have ihC : ∀ m, m < n → ∀ (xs : List XTree) (T : Tables) (cp : List String) (st : WalkState) r,
        sizeOf xs ≤ m → parseXmlChildren T xs cp st = .ok r → Progress st r.2.2 :=
      fun m hm => (ih m hm).2
    constructor
    · rintro ⟨tag, iA, nA, fA, lA, lmA, children⟩ T cp st r hsz hok
      have hcs : sizeOf children < n := by
        have h := XTree.mk.sizeOf_spec tag iA nA fA lA lmA children
        omega
      have ihch : ∀ (cp' : List String) (st' : WalkState) r',
          parseXmlChildren T children cp' st' = .ok r' → Progress st' r'.2.2 :=
        fun cp' st' r' h => ihC (sizeOf children) hcs children T cp' st' r' (le_refl _) h
      simp only [parseXmlNode] at hok
      split at hok
      · exact absurd hok (by simp)
      · rename_i nid hpi
        split at hok
        · -- PF / Pr
          rename_i htag
          split at hok
          · exact absurd hok (by simp)
          · rename_i name hname
            split at hok
            · exact absurd hok (by simp)
            · rename_i file hfile
              split at hok
              · exact absurd hok (by simp)
              · rename_i lmv hlm
                split at hok
                · -- elided Pr with empty name
                  rename_i helide
                  exact progress_trans (progress_src_file st fA) (ihch _ _ _ hok)
                · -- retained procedure
                  rename_i helide
                  split at hok
                  · exact absurd hok (by simp)
                  · rename_i ts cpx st3 hch
                    simp only [Except.ok.injEq] at hok
                    subst hok
                    have htag' : (tag == "S") = false := by
                      simp only [Bool.or_eq_true, beq_iff_eq] at htag
                      rcases htag with h | h <;> simp [h]
                    have hp := ihch _ _ _ hch
                    exact progress_trans
                      (progress_append_nonS st fA ⟨nid, name, tag, file, lA, some lmv, cp ++ [name]⟩ htag')
                      hp
        · split at hok
          · -- L
            split at hok
            · exact absurd hok (by simp)
            · rename_i file hfile
              split at hok
              · exact absurd hok (by simp)
              · rename_i line
                split at hok
                · exact absurd hok (by simp)
                · rename_i ts cpx st3 hch
                  simp only [Except.ok.injEq] at hok
                  subst hok
                  have hp := ihch _ _ _ hch
                  exact progress_trans
                    (progress_append_nonS st fA _ (by simp))
                    hp
          · split at hok
            · -- S
              split at hok
              · exact absurd hok (by simp)
              · rename_i file hfile
                split at hok
                · exact absurd hok (by simp)
                · rename_i line
                  split at hok
                  · exact absurd hok (by simp)
                  · rename_i ts cpx st3 hch
                    simp only [Except.ok.injEq] at hok
                    subst hok
                    have hp := ihch _ _ _ hch
                    refine progress_trans
                      (progress_append_S st st.src_file
                        ⟨nid, "Stmt" ++ toString st.stmt_num ++ "@" ++ rpartLast file ++ ":" ++ line,
                         "S", file, some line, none,
                         cp ++ ["Stmt" ++ toString st.stmt_num ++ "@" ++ rpartLast file ++ ":" ++ line]⟩
                        (by simp) (rpartLast file ++ ":" ++ line) ?_)
                      hp
                    simp [String.append_assoc]
            · split at hok
              · -- C
                exact ihch _ _ _ hok
              · exact absurd hok (by simp)
    · rintro xs T cp st r hsz hok
      match xs with
      | [] =>
        simp only [parseXmlChildren, Except.ok.injEq] at hok
        subst hok
        exact progress_refl st
      | x :: rest =>
        have hx : sizeOf x < n := by
          have h := List.cons.sizeOf_spec x rest
          omega
        have hrest : sizeOf rest < n := by
          have h := List.cons.sizeOf_spec x rest
          omega
        simp only [parseXmlChildren] at hok
        split at hok
        · exact ihC (sizeOf rest) hrest rest T cp st r (le_refl _) hok
        · split at hok
          · exact absurd hok (by simp)
          · rename_i ts cp' st' hnode
            split at hok
            · exact absurd hok (by simp)
            · rename_i ts2 cp'' st'' hrec
              simp only [Except.ok.injEq] at hok
              subst hok
              exact progress_trans
                (ihN (sizeOf x) hx x T cp st (ts, cp', st') (le_refl _) hnode)
                (ihC (sizeOf rest) hrest rest T cp' st' (ts2, cp'', st'') (le_refl _) hrec)

/-- Any successful child walk only appends records, advances the
statement counter by the number of statements appended, and names
them with the consecutive counter values (shared top-level helper). -/
theorem parseXmlChildren_progress {T : Tables} {xs : List XTree} {cp : List String}
    {st : WalkState} {r : List PTree × List String × WalkState}
    (h : parseXmlChildren T xs cp st = .ok r) : Progress st r.2.2 :=
  (parse_progress (sizeOf xs)).2 xs T cp st r (le_refl _) h

theorem consecFromP_getD {c : Nat} {l : List String} (h : consecFromP c l) :
    ∀ k, k < l.length → ∃ s, l.getD k "" = "Stmt" ++ toString (c + k) ++ "@" ++ s := by
  induction l generalizing c with
  | nil => intro k hk; simp at hk
  | cons nm rest ih =>
    intro k hk
    obtain ⟨⟨s0, hs0⟩, hrest⟩ := h
    cases k with
    | zero => exact ⟨s0, by simpa using hs0⟩
    | succ k' =>
      obtain ⟨s, hs⟩ := ih hrest k' (by simpa using hk)
      refine ⟨s, ?_⟩
      have harith : c + 1 + k' = c + (k' + 1) := by omega
      simpa [harith] using hs

/-- Every success of the tree builder wraps exactly one root in the
Graph (shared helper for the single-root facts). -/
theorem create_tree_single_root (T : Tables) (sf0 : Option String) (c0 : Nat)
    (profile : XTree) (g : Graph) (recs : List NodeRec)
    (h : create_graphframe_tree T sf0 c0 profile = .ok (g, recs)) :
    g.roots_attr.map List.length = some 1 := by
  simp only [create_graphframe_tree] at h
  split at h
  · exact absurd h (by simp)
  · split at h
    · exact absurd h (by simp)
    · split at h
      · exact absurd h (by simp)
      · split at h
        · exact absurd h (by simp)
        · split at h
          · exact absurd h (by simp)
          · split at h
            · exact absurd h (by simp)
            · simp only [Except.ok.injEq, Prod.mk.injEq] at h
              obtain ⟨hg, -⟩ := h
              subst hg
              rfl

/-- Test fixture: lookup tables of a small synthetic bundle. -/
def Tt : Tables :=
  ⟨fun s => if s = "m1" then some "/bin/x" else none,
   fun s => if s = "f1" then some "dir/a.c" else if s = "f2" then some "dir/b.c" else none,
   fun s => if s = "1" then some "main" else if s = "2" then some "a" else
            if s = "3" then some "b" else if s = "9" then some "" else none⟩

/-- Fixture: root procedure `main` with two retained procedure
children `a` and `b`. -/
def profA : XTree :=
  .mk "SecCallPathProfileData" none none none none none
    [.mk "PF" (some "10") (some "1") (some "f1") (some "0") (some "m1")
      [.mk "PF" (some "11") (some "2") (some "f1") (some "1") (some "m1") [],
       .mk "PF" (some "12") (some "3") (some "f1") (some "2") (some "m1") []]]

/-- Fixture: a calling-context forest with two top-level `PF`
elements. -/
def profB : XTree :=
  .mk "SecCallPathProfileData" none none none none none
    [.mk "PF" (some "10") (some "1") (some "f1") (some "0") (some "m1") [],
     .mk "PF" (some "20") (some "3") (some "f1") (some "0") (some "m1") []]

/-- Fixture: root procedure with a `PF` child whose resolved name is
the empty string (procedure id 9). -/
def profC : XTree :=
  .mk "SecCallPathProfileData" none none none none none
    [.mk "PF" (some "10") (some "1") (some "f1") (some "0") (some "m1")
      [.mk "PF" (some "11") (some "9") (some "f1") (some "1") (some "m1") []]]

/-- Fixture: root procedure (file `f1`) with a loop child in file `f2`
followed by a statement child directly under the root. -/
def profD : XTree :=
  .mk "SecCallPathProfileData" none none none none none
    [.mk "PF" (some "10") (some "1") (some "f1") (some "0") (some "m1")
      [.mk "L" (some "11") none (some "f2") (some "5") none [],
       .mk "S" (some "12") none none (some "7") none []]]

/-- Fixture: root procedure with a child of unrecognised tag `X`. -/
def profE : XTree :=
  .mk "SecCallPathProfileData" none none none none none
    [.mk "PF" (some "10") (some "1") (some "f1") (some "0") (some "m1")
      [.mk "X" (some "7") none none none none []]]

/-- Fixture: root procedure containing a nested procedure with two
statements. -/
def profW : XTree :=
  .mk "SecCallPathProfileData" none none none none none
    [.mk "PF" (some "10") (some "1") (some "f1") (some "0") (some "m1")
      [.mk "PF" (some "11") (some "2") (some "f1") (some "1") (some "m1")
        [.mk "S" (some "12") none none (some "7") none [],
         .mk "S" (some "13") none none (some "9") none []]]]

/-- The graph produced for `profB`. -/
def profBg : Graph := Graph.init (some [.mk ["main"] []])

/-- The records produced for `profB`. -/
def profBrecs : List NodeRec :=
  [⟨10, "main", "PF", "dir/a.c", some "0", some "/bin/x", ["main"]⟩]

/-- The graph produced for `profW`. -/
def profWg : Graph :=
  Graph.init (some [.mk ["main"]
    [.mk ["main", "a"]
      [.mk ["main", "a", "Stmt1@a.c:7"] [],
       .mk ["main", "a", "Stmt1@a.c:7", "Stmt2@a.c:9"] []]]])

/-- The records produced for `profW`. -/
def profWrecs : List NodeRec :=
  [⟨10, "main", "PF", "dir/a.c", some "0", some "/bin/x", ["main"]⟩,
   ⟨11, "a", "PF", "dir/a.c", some "1", some "/bin/x", ["main", "a"]⟩,
   ⟨12, "Stmt1@a.c:7", "S", "dir/a.c", some "7", none, ["main", "a", "Stmt1@a.c:7"]⟩,
   ⟨13, "Stmt2@a.c:9", "S", "dir/a.c", some "9", none,
    ["main", "a", "Stmt1@a.c:7", "Stmt2@a.c:9"]⟩]

/-- Fixture metric-db file: endian byte `'b'`, `num_nodes = 1`,
`num_metrics = 2`, payload values 5 and 6. -/
def mdbOk : List Nat :=
  List.replicate 23 0 ++ [98] ++ [0, 0, 0, 1] ++ [0, 0, 0, 2]
    ++ [5, 0, 0, 0, 0, 0, 0, 0] ++ [6, 0, 0, 0, 0, 0, 0, 0]

/-- Fixture metric-db file with endianness byte `'l'` (108), payload
values 7 and 8. -/
def mdbBad : List Nat :=
  List.replicate 23 0 ++ [108] ++ [0, 0, 0, 1] ++ [0, 0, 0, 2]
    ++ [7, 0, 0, 0, 0, 0, 0, 0] ++ [8, 0, 0, 0, 0, 0, 0, 0]

/-- A concrete instantiation of the abstract float64 decoder for the
fixtures: each 8-byte group's value is represented by its first
byte. -/
def dec8 (bs : List Nat) : List Int :=
  (List.range (bs.length / 8)).map (fun i => (bs.getD (8 * i) 0 : Int))

/-- C1: the claimed invariant — every node's callpath is its parent's
callpath with its own name appended (so length = depth + 1) — fails on
the code.  With root `main` having two retained procedure children `a`
and `b`, the alias `node_callpath = parent_callpath` leaves the first
sibling's name in the shared list, so the Node created for the second
child gets callpath `(main, a, b)` (length 3 at depth 1) instead of
`(main, b)`. -/
theorem callpath_aliasing_at_second_sibling :
    (create_graphframe_tree Tt none 1 profA).map
      (fun p => ((p.1.roots_attr.getD []).getD 0 (.mk [] [])).children.map PTree.callpath)
      = .ok [["main", "a"], ["main", "a", "b"]] ∧
    (["main", "a", "b"] : List String) ≠ ["main", "b"] ∧
    (["main", "a", "b"] : List String).length ≠ 1 + 1 :=
  ⟨by decide, by decide, by decide⟩

/-- C2 counterexample: with `num_metrics = 3` (and `num_nodes = 1`,
rank 0, a 5-column buffer row) the decoded payload `[10, 20, 30]` is
*not* written into the first 3 columns with the synthetic columns
after them (`[10, 20, 30, 1, 0]`): the code writes the payload into
the first *two* columns only and puts the synthetic node index and
rank at the fixed indices 2 and 3, yielding `[10, 20, 1, 0, 0]`. -/
theorem metricdb_write_columns_counterexample :
    (read_metricdb_file 0 1 3 [10, 20, 30] (zerosBuf 1 5)).map
      (fun b => [b.cell 0 0, b.cell 0 1, b.cell 0 2, b.cell 0 3, b.cell 0 4])
      = .ok [10, 20, 1, 0, 0] ∧
    ([10, 20, 1, 0, 0] : List Int) ≠ [10, 20, 30, 1, 0] :=
  ⟨by decide, by decide⟩

/-- C2 as amended: the payload is written row-major into the first
*two* columns of rows `[pe*N, pe*N + N)` and the synthetic 1-based
node index and the rank `pe` are written at fixed column indices 2 and
3; for `num_metrics = 2` (and only then) this coincides with the
claimed layout "first `num_metrics` columns, synthetic columns after
them".  Rows outside the block are untouched. -/
theorem metricdb_write_fixed_columns (pe N : Nat) (fileFloats : List Int) (buf : SharedBuf)
    (hcols : buf.numCols = 4) (hlen : fileFloats.length = N * 2) (hN : 0 < N) :
    ∃ b, read_metricdb_file pe N 2 fileFloats buf = .ok b ∧
      (∀ r, r < N →
        (∀ c, c < 2 → b.cell (pe * N + r) c = fileFloats.getD (r * 2 + c) 0) ∧
        b.cell (pe * N + r) 2 = (r : Int) + 1 ∧
        b.cell (pe * N + r) 3 = (pe : Int)) ∧
      (∀ r c, r < pe * N ∨ pe * N + N ≤ r → b.cell r c = buf.cell r c) := by
  have htake : fileFloats.take (N * 2) = fileFloats := by
    rw [← hlen]
    exact List.take_length fileFloats
  have hne : (fileFloats.length == 0) = false := by
    rw [hlen]
    simp
    omega
  have hmin : min 2 buf.numCols = 2 := by rw [hcols]; decide
  simp only [read_metricdb_file, htake, hne, hmin, hcols, Bool.false_and, Bool.and_eq_true,
    if_false]
  norm_num
  refine ⟨?_, ?_⟩
  · intro r hr
    refine ⟨?_, ?_, ?_⟩
    · intro c hc
      rw [Nat.mod_eq_of_lt (show r * 2 + c < fileFloats.length by omega),
        if_neg (by omega), if_neg (by omega), if_pos (⟨hr, hc⟩ : r < N ∧ c < 2)]
    · omega
    · omega
  · intro r c hr
    omega

theorem metricdb_write_fixed_columns_witness :
    ∃ b, read_metricdb_file 1 2 2 [4, 5, 6, 7] (zerosBuf 4 4) = .ok b ∧
      (∀ r, r < 2 →
        (∀ c, c < 2 → b.cell (1 * 2 + r) c = [(4 : Int), 5, 6, 7].getD (r * 2 + c) 0) ∧
        b.cell (1 * 2 + r) 2 = (r : Int) + 1 ∧
        b.cell (1 * 2 + r) 3 = ((1 : Nat) : Int)) ∧
      (∀ r c, r < 1 * 2 ∨ 1 * 2 + 2 ≤ r → b.cell r c = (zerosBuf 4 4).cell r c) :=
  metricdb_write_fixed_columns 1 2 [4, 5, 6, 7] (zerosBuf 4 4) rfl rfl (by decide)

/-- C3 counterexample: a `PF` element whose resolved display name is
empty is *not* elided — the elision test checks only the `Pr` tag —
so a NodeRecord with empty name is appended and a Node with callpath
`(main, "")` is attached to the parent. -/
theorem pf_empty_name_retained_counterexample :
    (create_graphframe_tree Tt none 1 profC).map
      (fun p => (p.2.map (fun rc => rc.name),
                 ((p.1.roots_attr.getD []).getD 0 (.mk [] [])).children.map PTree.callpath))
      = .ok (["main", ""], [["main", ""]]) :=
  by decide

/-- C3 as amended: only the `Pr` tag variant with empty resolved name
is elided.  For such an element no NodeRecord is appended and no child
Node is attached by the element itself — its children's subtrees are
returned for attachment to the element's parent — but, contrary to the
original claim, the empty name *is* appended to the shared callpath
list first (and the global `src_file` is updated), so the children are
visited with the parent's callpath plus an empty segment. -/
theorem pr_empty_name_elision (T : Tables) (x : XTree) (cp : List String) (st : WalkState)
    (nid : Int) (file lmv : String)
    (htag : x.tag = "Pr") (hi : pyIntOpt x.iAttr = .ok nid)
    (hn : dictGet T.procedure_names x.nAttr = .ok "")
    (hf : dictGet T.src_files x.fAttr = .ok file)
    (hlm : dictGet T.load_modules x.lmAttr = .ok lmv) :
    parseXmlNode T x cp st
      = parseXmlChildren T x.children (cp ++ [""]) { st with src_file := x.fAttr } := by
  cases x with
  | mk tag iA nA fA lA lmA children =>
    simp only [XTree.tag] at htag
    subst htag
    simp only [XTree.iAttr] at hi
    simp only [XTree.nAttr] at hn
    simp only [XTree.fAttr] at hf
    simp only [XTree.lmAttr] at hlm
    simp only [XTree.children, XTree.fAttr]
    simp [parseXmlNode, hi, hn, hf, hlm]

theorem pr_empty_name_elision_witness :
    parseXmlNode Tt (XTree.mk "Pr" (some "5") (some "9") (some "f1") none (some "m1") [])
        ["main"] ⟨none, 1, []⟩
      = parseXmlChildren Tt
          (XTree.mk "Pr" (some "5") (some "9") (some "f1") none (some "m1") []).children
          (["main"] ++ [""])
          { (⟨none, 1, []⟩ : WalkState) with
              src_file := (XTree.mk "Pr" (some "5") (some "9") (some "f1") none
                (some "m1") []).fAttr } :=
  pr_empty_name_elision Tt _ ["main"] ⟨none, 1, []⟩ 5 "dir/a.c" "/bin/x" rfl rfl rfl rfl rfl

/-- C4 counterexample: a calling-context forest with `k = 2` top-level
`PF` elements produces a Graph with a single root — `findall('PF')[0]`
starts the walk at the first top-level procedure only and
`Graph([graph_root])` wraps exactly one root — and the second
top-level procedure leaves no trace in the records either. -/
theorem two_toplevel_pf_single_root_counterexample :
    (create_graphframe_tree Tt none 1 profB).map
      (fun p => (p.1.roots_attr.map List.length, p.2.map (fun rc => rc.name)))
      = .ok (some 1, ["main"]) ∧ (some 1 ≠ some 2) :=
  ⟨by decide, by decide⟩

/-- C4 as amended: the walk starts from the first top-level `PF`
element only, so every Graph the builder produces has exactly one
root, whatever the number of top-level procedure elements. -/
theorem graph_always_single_root (T : Tables) (sf0 : Option String) (c0 : Nat)
    (profile : XTree) (g : Graph) (recs : List NodeRec)
    (h : create_graphframe_tree T sf0 c0 profile = .ok (g, recs)) :
    g.roots_attr.map List.length = some 1 :=
  create_tree_single_root T sf0 c0 profile g recs h

theorem graph_always_single_root_witness :
    profBg.roots_attr.map List.length = some 1 :=
  graph_always_single_root Tt none 1 profB profBg profBrecs rfl

/-- C5 counterexample: in `profD` the statement element is a direct
child of the root procedure (the root's subtree has two children, the
loop and the statement), so its nearest enclosing Procedure-or-Loop
node is the root, whose file is `dir/a.c`; but the statement's record
carries `dir/b.c` — the file of the *most recently visited* loop (an
earlier sibling's subtree), read from the mutable global
`src_file`. -/
theorem stmt_src_file_not_enclosing_counterexample :
    (create_graphframe_tree Tt none 1 profD).map
      (fun p => p.2.map (fun rc => (rc.type, rc.file)))
      = .ok [("PF", "dir/a.c"), ("L", "dir/b.c"), ("S", "dir/b.c")] ∧
    (create_graphframe_tree Tt none 1 profD).map
      (fun p => ((p.1.roots_attr.getD []).getD 0 (.mk [] [])).children.length)
      = .ok 2 ∧
    ("dir/b.c" : String) ≠ "dir/a.c" :=
  ⟨by decide, by decide, by decide⟩

/-- C5 as amended: the file recorded for a statement is the lookup of
the walk's mutable `src_file` global as it stands when the statement
is visited — i.e. the `f` attribute of the most recently visited
procedure or loop element in pre-order, not necessarily the statement's
nearest enclosing Procedure/Loop node in the tree. -/
theorem stmt_uses_global_src_file (T : Tables) (x : XTree) (cp : List String)
    (st : WalkState) (nid : Int) (file line : String)
    (r : List PTree × List String × WalkState)
    (htag : x.tag = "S") (hi : pyIntOpt x.iAttr = .ok nid)
    (hfile : dictGet T.src_files st.src_file = .ok file)
    (hline : x.lAttr = some line)
    (hok : parseXmlNode T x cp st = .ok r) :
    ∃ Δ, (r.2.2).node_dicts = st.node_dicts ++
      (⟨nid, "Stmt" ++ toString st.stmt_num ++ "@" ++ rpartLast file ++ ":" ++ line,
        "S", file, some line, none,
        cp ++ ["Stmt" ++ toString st.stmt_num ++ "@" ++ rpartLast file ++ ":" ++ line]⟩
        : NodeRec) :: Δ := by
  cases x with
  | mk tag iA nA fA lA lmA children =>
    simp only [XTree.tag] at htag
    subst htag
    simp only [XTree.iAttr] at hi
    simp only [XTree.lAttr] at hline
    subst hline
    simp [parseXmlNode, hi, hfile] at hok
    split at hok
    · exact absurd hok (by simp)
    · rename_i ts cpx st3 hch
      simp only [Except.ok.injEq] at hok
      subst hok
      obtain ⟨Δc, hd, -, -⟩ := parseXmlChildren_progress hch
      refine ⟨Δc, ?_⟩
      rw [hd]
      simp

theorem stmt_uses_global_src_file_witness :
    ∃ Δ, ((([PTree.mk ["main", "Stmt1@a.c:7"] []], ["main", "Stmt1@a.c:7"],
        (⟨some "f1", 2,
          [⟨12, "Stmt1@a.c:7", "S", "dir/a.c", some "7", none,
            ["main", "Stmt1@a.c:7"]⟩]⟩ : WalkState))
        : List PTree × List String × WalkState).2.2).node_dicts
      = ([] : List NodeRec) ++
        (⟨12, "Stmt" ++ toString (1 : Nat) ++ "@" ++ rpartLast "dir/a.c" ++ ":" ++ "7",
          "S", "dir/a.c", some "7", none,
          ["main"] ++ ["Stmt" ++ toString (1 : Nat) ++ "@" ++ rpartLast "dir/a.c" ++ ":" ++ "7"]⟩
          : NodeRec) :: Δ :=
  stmt_uses_global_src_file Tt (XTree.mk "S" (some "12") none none (some "7") none [])
    ["main"] ⟨some "f1", 1, []⟩ 12 "dir/a.c" "7" _ rfl rfl rfl rfl rfl

/-- C6 counterexample: an element with an unrecognised tag (here `X`)
below the root is *not* skipped: `parse_xml_children` filters out only
the `M` tag, `parse_xml_node` is entered, no branch assigns
`node_dict`, and the final `else` raises `UnboundLocalError`, aborting
the walk instead of producing the claimed error-free skip. -/
theorem unknown_tag_error_counterexample :
    (create_graphframe_tree Tt none 1 profE).map (fun _ => 0) = .error .unboundLocal :=
  by decide

/-- C6 as amended: only elements tagged `M` are skipped during child
iteration (no recursion, no node, no error); an element with any tag
outside the retained-node-producing set and distinct from `C` and `M`
is recursed into and — once its `i` attribute parses — raises an
unbound-local error. -/
theorem only_metric_tag_skipped :
    (∀ (T : Tables) (m : XTree) (rest : List XTree) (cp : List String) (st : WalkState),
        m.tag = "M" → parseXmlChildren T (m :: rest) cp st = parseXmlChildren T rest cp st) ∧
    (∀ (T : Tables) (x : XTree) (cp : List String) (st : WalkState) (nid : Int),
        x.tag ∉ (["PF", "Pr", "L", "S", "C"] : List String) →
        pyIntOpt x.iAttr = .ok nid →
        parseXmlNode T x cp st = .error .unboundLocal) := by
  constructor
  · intro T m rest cp st htag
    simp [parseXmlChildren, htag]
  · intro T x cp st nid htag hi
    cases x with
    | mk tag iA nA fA lA lmA children =>
      simp only [XTree.tag] at htag
      simp only [XTree.iAttr] at hi
      simp only [List.mem_cons, not_or] at htag
      obtain ⟨h1, h2, h3, h4, h5, -⟩ := htag
      simp [parseXmlNode, hi, beq_eq_false_iff_ne.mpr h1, beq_eq_false_iff_ne.mpr h2,
        beq_eq_false_iff_ne.mpr h3, beq_eq_false_iff_ne.mpr h4, beq_eq_false_iff_ne.mpr h5]

theorem only_metric_tag_skipped_witness :
    parseXmlChildren Tt [XTree.mk "M" none none none none none []] ["main"] ⟨none, 1, []⟩
        = parseXmlChildren Tt [] ["main"] ⟨none, 1, []⟩ ∧
    parseXmlNode Tt (XTree.mk "X" (some "7") none none none none []) ["main"] ⟨none, 1, []⟩
        = .error .unboundLocal :=
  ⟨only_metric_tag_skipped.1 Tt _ [] ["main"] ⟨none, 1, []⟩ rfl,
   only_metric_tag_skipped.2 Tt _ ["main"] ⟨none, 1, []⟩ 7 (by decide) rfl⟩

/-- C7 counterexample: only the *first* metric-db file's endianness
byte is ever inspected (in `__init__`).  In a bundle whose first file
is well-formed and whose second file has endianness byte `'l'` (108,
not `'b'` = 98), ingestion completes without any error and the second
file's payload (7, 8) is written into its row of the shared buffer —
no format error is raised for that file. -/
theorem second_file_endian_unchecked_counterexample :
    (ingest_metrics dec8 [mdbOk, mdbBad]).map
      (fun b => [b.cell 1 0, b.cell 1 1, b.cell 1 2, b.cell 1 3]) = .ok [7, 8, 1, 1] ∧
    mdbBad.getD 23 0 = 108 ∧ (108 : Nat) ≠ 98 :=
  ⟨by decide, by decide, by decide⟩

/-- C7 as amended: the endianness guard applies to the first file of
the listing only: when *that* file's byte at offset 23 is not `'b'`,
`__init__` raises `ValueError` and ingestion aborts before the shared
buffer is even allocated, so nothing is written. -/
theorem first_file_endian_guard (dec : List Nat → List Int) (f0 : List Nat)
    (rest : List (List Nat)) (h : (f0.drop 23).take 1 ≠ [98]) :
    ingest_metrics dec (f0 :: rest) = .error .valueError := by
  have hb : (((f0.drop 23).take 1) == [98]) = false := beq_eq_false_iff_ne.mpr h
  simp [ingest_metrics, reader_init_counts, parse_metricdb_header, hb]

theorem first_file_endian_guard_witness :
    ingest_metrics dec8 [List.replicate 24 0] = .error .valueError :=
  first_file_endian_guard dec8 (List.replicate 24 0) [] (by decide)

/-- C8: within one bundle walk the statement counter is shared across
the entire walk and never reset: the `k`-th statement record produced
(in pre-order visitation order, over the whole record list) is named
`Stmt<c0 + k>@...` where `c0` is the counter value at the start of the
walk — so the numbers are strictly increasing in visitation order and
no number is reused; the walk is a pure function of the bundle and the
initial globals, so a fixed traversal always yields these same
names. -/
theorem stmt_counter_monotone (T : Tables) (sf0 : Option String) (c0 : Nat)
    (profile : XTree) (g : Graph) (recs : List NodeRec)
    (h : create_graphframe_tree T sf0 c0 profile = .ok (g, recs)) :
    ∀ k, k < (sNames recs).length →
      ∃ suffix, (sNames recs).getD k "" = "Stmt" ++ toString (c0 + k) ++ "@" ++ suffix := by
  simp only [create_graphframe_tree] at h
  split at h
  · exact absurd h (by simp)
  · rename_i root rest heq
    split at h
    · exact absurd h (by simp)
    · rename_i nid hnid
      split at h
      · exact absurd h (by simp)
      · rename_i rootName hname
        split at h
        · exact absurd h (by simp)
        · rename_i file hfile
          split at h
          · exact absurd h (by simp)
          · rename_i lmv hlm
            split at h
            · exact absurd h (by simp)
            · rename_i ts cpx stF hch
              simp only [Except.ok.injEq, Prod.mk.injEq] at h
              obtain ⟨-, hrecs⟩ := h
              subst hrecs
              obtain ⟨Δ, hd, -, hc⟩ := parseXmlChildren_progress hch
              rw [hd, sNames_append]
              have h0 : sNames (WalkState.mk sf0 c0
                  [⟨nid, rootName, "PF", file, root.lAttr, some lmv, [rootName]⟩]).node_dicts
                  = [] := by simp [sNames]
              rw [h0, List.nil_append]
              exact consecFromP_getD hc

theorem stmt_counter_monotone_witness :
    ∃ suffix, (sNames profWrecs).getD 1 "" = "Stmt" ++ toString (1 + 1) ++ "@" ++ suffix :=
  stmt_counter_monotone Tt none 1 profW profWg profWrecs rfl 1 (by decide)

/-- C9 counterexample: the merge-and-index step raises no consistency
error and produces a table with a duplicate (node, rank) pair: with
two metric rows sharing `nid = 1` and `rank = 0` (as the fixed-column
buffer layout produces whenever `num_metrics ≠ 2`) and one node row,
the result contains two rows whose (node, rank) index pair is (42, 0)
in both. -/
theorem duplicate_node_rank_counterexample :
    merge_metrics_nodes [⟨1, 0, [5]⟩, ⟨1, 0, [6]⟩] [⟨1, 42⟩]
      = [⟨1, 0, [5], 42⟩, ⟨1, 0, [6], 42⟩] ∧
    (merge_metrics_nodes [⟨1, 0, [5]⟩, ⟨1, 0, [6]⟩] [⟨1, 42⟩]).map
      (fun row => (row.node, row.rank)) = [(42, 0), (42, 0)] ∧
    ¬ ([(42, 0), (42, 0)] : List (Nat × Int)).Nodup :=
  ⟨by decide, by decide, by decide⟩

/-- C9 as amended: `set_index` is called without `verify_integrity`,
so no duplicate detection is performed and no error can be raised: the
produced table is exactly the inner join of the metric and node tables
on `nid`, indexed by (node, rank), duplicates included — a row is in
the output iff it combines a metric row and a node row with equal
`nid`. -/
theorem merge_inner_join_no_dup_check (ms : List MetricRow) (ns : List NodeRow)
    (row : MergedRow) :
    row ∈ merge_metrics_nodes ms ns ↔
      ∃ m, m ∈ ms ∧ ∃ n, n ∈ ns ∧ n.nid = m.nid ∧
        row = ⟨m.nid, m.rank, m.vals, n.node⟩ := by
  simp only [merge_metrics_nodes, set_index_node_rank, pd_merge, List.mem_flatMap,
    List.mem_map, List.mem_filter, beq_iff_eq]
  constructor
  · rintro ⟨m, hm, n, ⟨hn, hnid⟩, hrow⟩
    exact ⟨m, hm, n, hn, hnid, hrow.symm⟩
  · rintro ⟨m, hm, n, hn, hnid, hrow⟩
    exact ⟨m, hm, n, ⟨hn, hnid⟩, hrow.symm⟩

theorem merge_inner_join_no_dup_check_witness :
    (⟨1, 0, [5], 7⟩ : MergedRow) ∈ merge_metrics_nodes [⟨1, 0, [5]⟩] [⟨1, 7⟩] :=
  (merge_inner_join_no_dup_check [⟨1, 0, [5]⟩] [⟨1, 7⟩] ⟨1, 0, [5], 7⟩).mpr
    ⟨⟨1, 0, [5]⟩, by decide, ⟨1, 7⟩, by decide, rfl, rfl⟩

/-- C10: `Graph.__init__` assigns the `roots` attribute only for a
non-`None` argument, so `Graph(None)` has no `roots` attribute and
both `to_string()` (default arguments) and `__str__` fail with
`AttributeError` rather than rendering an empty graph; and every Graph
the reader builds is constructed with a non-`None` one-element root
list. -/
theorem graph_none_roots_attribute :
    (Graph.init none).roots_attr = none ∧
    (Graph.init none).to_string none = .error .attributeError ∧
    Graph.str (Graph.init none) = .error .attributeError ∧
    (∀ (T : Tables) (sf0 : Option String) (c0 : Nat) (profile : XTree) (g : Graph)
        (recs : List NodeRec),
        create_graphframe_tree T sf0 c0 profile = .ok (g, recs) →
        g.roots_attr.map List.length = some 1) :=
  ⟨rfl, rfl, rfl,
   fun T sf0 c0 profile g recs h => create_tree_single_root T sf0 c0 profile g recs h⟩

theorem graph_none_roots_attribute_witness :
    Graph.str (Graph.init none) = .error .attributeError ∧
    profBg.roots_attr.map List.length = some 1 :=
  ⟨graph_none_roots_attribute.2.2.1,
   graph_none_roots_attribute.2.2.2 Tt none 1 profB profBg profBrecs rfl⟩
